import Mathlib

/-
Shallow embedding of `yamill` (src/yamill.py): the tokenizer, the scalar
normalizer and the layout engine (`normalize`), together with theorems
settling the frozen claims about them.

Modelling conventions:
* Python strings are Lean `String`s; the tokenizer works on `List Char`.
* Python exceptions become the `Err` inductive.  Besides the three error
  classes declared by the module (`TokenError`, `ParseError`,
  `SanitizeError`) the code can also raise built-in exceptions:
  `list.pop` on an empty list (`IndexError`) and `int(...)` / `float(...)`
  on unparseable text (`ValueError`).  Diagnostic message payloads are not
  modelled.
* Python `int(...)` / `float(...)` / `repr` / `oct` / `hex` are modelled
  for ASCII inputs (the unicode-digit and unicode-whitespace acceptance of
  CPython is out of scope); `float` is IEEE-754 binary64, modelled exactly
  with integer arithmetic, and `repr` of a float is the shortest decimal
  that round-trips, as in CPython.
-/

namespace Yamill

/-- Every way a call of `normalize` can terminate abnormally: the three
error classes of the module plus the built-in exceptions reachable from
its code. -/
inductive Err where
  | tokenError
  | parseError
  | sanitizeError
  | indexError
  | valueError
deriving DecidableEq, Repr

/-- Token kinds, mirroring the `type_` strings of `src/yamill.py`
(`"document"`, `"map-open"`, ..., and the initial `"none"` placeholder). -/
inductive TokType where
  | document
  | mapOpen
  | mapClose
  | mapKey
  | mapVal
  | seqOpen
  | seqClose
  | tag
  | value
  | commentLine
  | commentInline
  | emptyLine
  | nonetype
deriving DecidableEq, Repr

/-- The `Token` dataclass: kind, 1-based source position, optional text. -/
structure Token where
  type_ : TokType
  line : Nat
  column : Nat
  value : Option String := none
deriving DecidableEq, Repr

/-- Result of running the tokenizer to exhaustion: the tokens it yielded,
and whether it finished cleanly (`ok = false` means the generator raised
`TokenError` after yielding `toks`). -/
structure LexOut where
  toks : List Token
  ok : Bool
deriving DecidableEq, Repr

/-- Python `\s` / `str.isspace` on the ASCII range. -/
def pyIsSpace (c : Char) : Bool :=
  c = ' ' || c = '\t' || c = '\n' || c = '\r' || c = '\x0b' || c = '\x0c'

/-- Position of the closing quote of `_value_re`: the first index `idx`
(counting from `idx0`, with `prev` the character just before) holding a
`"` not preceded by a backslash. -/
def findClose (prev : Char) : List Char → Nat → Option Nat
  | [], _ => none
  | c :: rest, idx =>
    if c = '"' && prev ≠ '\\' then some idx else findClose c rest (idx + 1)

/-- The `.replace("\\\n\\", "")` applied to a value token's text: delete
every backslash-newline-backslash continuation, scanning left to right. -/
def stripCont : List Char → List Char
  | '\\' :: '\n' :: '\\' :: rest => stripCont rest
  | c :: rest => c :: stripCont rest
  | [] => []

/-- One application of the ordered lexical rules of `tokenize` at cursor
`c :: rest`, with position counters `line`, `col`, `ws`: the token to
emit (if any), the total number of characters consumed, and the updated
counters — or `none` when no rule matches (the `TokenError` case).
`ws` tracks how far the "whitespace" of the current line reaches; note
that the tag rule advances `ws` as well as `col`. -/
def tokRule (c : Char) (rest : List Char) (line col ws : Nat) :
    Option (Option Token × Nat × Nat × Nat × Nat) :=
  if c = '\n' then
    some ((if ws = col then some ⟨.emptyLine, line, col, none⟩ else none),
      1, line + 1, 1, 1)
  else if c = ' ' then some (none, 1, line, col + 1, ws + 1)
  else if c = ',' then some (none, 1, line, col + 1, ws)
  else if c = '-' && rest.take 2 = ['-', '-'] then
    some (some ⟨.document, line, col, none⟩, 3, line, col + 3, ws)
  else if c = '\x7b' then
    some (some ⟨.mapOpen, line, col, none⟩, 1, line, col + 1, ws)
  else if c = '\x7d' then
    some (some ⟨.mapClose, line, col, none⟩, 1, line, col + 1, ws)
  else if c = '?' then
    some (some ⟨.mapKey, line, col, none⟩, 1, line, col + 1, ws)
  else if c = ':' then
    some (some ⟨.mapVal, line, col, none⟩, 1, line, col + 1, ws)
  else if c = '[' then
    some (some ⟨.seqOpen, line, col, none⟩, 1, line, col + 1, ws)
  else if c = ']' then
    some (some ⟨.seqClose, line, col, none⟩, 1, line, col + 1, ws)
  else if c = '!' && rest.take 1 = ['!'] then
    -- `!!(\S*)`: a greedy run of non-whitespace after the two bangs.
    let run := (rest.drop 1).takeWhile (fun ch => !pyIsSpace ch)
    some (some ⟨.tag, line, col, some run.asString⟩, 2 + run.length,
      line, col + (2 + run.length), ws + (2 + run.length))
  else if c = '"' then
    match findClose '"' rest 1 with
    | some j =>
      some (some ⟨.value, line, col,
          some (stripCont (rest.take (j - 1))).asString⟩,
        j + 1, line, col + (j + 1), ws)
    | none => none
  else if c = '#' then
    -- ` ?#(.*)`: the optional leading space can never fire, a space is
    -- always consumed by the whitespace rule first.
    let body := rest.takeWhile (fun ch => ch ≠ '\n')
    some (some ⟨(if ws = col then .commentLine else .commentInline),
        line, col, some body.asString⟩,
      1 + body.length, line, col + (1 + body.length), ws)
  else none

/-- One full run of `tokenize`, fuelled.  Each loop iteration of the
Python generator consumes at least one character, so `fuel :=
yaml.length` makes the zero-fuel branch unreachable. -/
def tokenizeF : Nat → List Char → Nat → Nat → Nat → LexOut
  | _, [], _, _, _ => ⟨[], true⟩
  | 0, _ :: _, _, _, _ => ⟨[], false⟩
  | fuel + 1, c :: rest, line, col, ws =>
    match tokRule c rest line col ws with
    | none => ⟨[], false⟩
    | some (t, n, line', col', ws') =>
      let r := tokenizeF fuel ((c :: rest).drop n) line' col' ws'
      ⟨(match t with | some tk => tk :: r.toks | none => r.toks), r.ok⟩

/-- `tokenize`, run to exhaustion on a whole input. -/
def tokenize (yaml : List Char) : LexOut := tokenizeF yaml.length yaml 1 1 1

/-! ### Python `int(...)`, `repr`, `oct`, `hex` -/

/-- Strip leading and trailing whitespace, as `int`/`float` do on their
string argument. -/
def pyStrip (l : List Char) : List Char :=
  ((l.dropWhile pyIsSpace).reverse.dropWhile pyIsSpace).reverse

/-- Value of one digit in base `b` (8, 10 or 16), ASCII. -/
def digitVal (b : Nat) (c : Char) : Option Nat :=
  let v : Option Nat :=
    if '0' ≤ c && c ≤ '9' then some (c.toNat - 48)
    else if 'a' ≤ c && c ≤ 'f' then some (c.toNat - 87)
    else if 'A' ≤ c && c ≤ 'F' then some (c.toNat - 55)
    else none
  match v with
  | some d => if d < b then some d else none
  | none => none

/-- Consume a run `digit (digit | '_' digit)*` (CPython's underscore rule:
an underscore must sit between two digits).  Returns the accumulated
value, the number of digits consumed and the rest.  Callers guard that
the first character is a digit, so the run never starts at `'_'`. -/
def scanRun (b : Nat) : Nat → Nat → List Char → Nat × Nat × List Char
  | acc, cnt, '_' :: c :: rest =>
    match digitVal b c with
    | some d => scanRun b (acc * b + d) (cnt + 1) rest
    | none => (acc, cnt, '_' :: c :: rest)
  | acc, cnt, c :: rest =>
    match digitVal b c with
    | some d => scanRun b (acc * b + d) (cnt + 1) rest
    | none => (acc, cnt, c :: rest)
  | acc, cnt, [] => (acc, cnt, [])

/-- A digit sequence with underscores; zero digits consumed when the head
is not a digit (in particular a leading underscore is not consumed). -/
def scanDigits (b : Nat) (l : List Char) : Nat × Nat × List Char :=
  match l with
  | c :: _ => if (digitVal b c).isSome then scanRun b 0 0 l else (0, 0, l)
  | [] => (0, 0, l)

/-- Optional sign; `true` means negative. -/
def scanSign : List Char → Bool × List Char
  | '+' :: rest => (false, rest)
  | '-' :: rest => (true, rest)
  | l => (false, l)

/-- Python `int(s)` (base 10): strip, optional sign, digits with
underscores, nothing else.  `ValueError` otherwise. -/
def pyParseInt (s : String) : Except Err Int :=
  let l := pyStrip s.data
  let (neg, l) := scanSign l
  let (v, cnt, rest) := scanDigits 10 l
  if cnt = 0 || rest ≠ [] then .error .valueError
  else .ok (if neg then -(v : Int) else (v : Int))

/-- Python `int(s, b)` for `b ∈ {8, 16}`: strip, optional sign, optional
`0o`/`0O` (resp. `0x`/`0X`) prefix, after which one underscore may
directly follow the prefix, then digits with underscores. -/
def pyParseIntBase (b : Nat) (s : String) : Except Err Int :=
  let l := pyStrip s.data
  let (neg, l) := scanSign l
  let l :=
    match l with
    | '0' :: c :: rest =>
      if (b = 8 && (c = 'o' || c = 'O')) || (b = 16 && (c = 'x' || c = 'X')) then
        match rest with
        | '_' :: rest2 => rest2
        | _ => rest
      else '0' :: c :: rest
    | l => l
  let (v, cnt, rest) := scanDigits b l
  if cnt = 0 || rest ≠ [] then .error .valueError
  else .ok (if neg then -(v : Int) else (v : Int))

/-- Decimal digit string of a natural number. -/
def natDec (n : Nat) : String := (Nat.toDigits 10 n).asString

/-- Python `repr` of an int. -/
def pyReprInt (n : Int) : String :=
  (if n < 0 then "-" else "") ++ natDec n.natAbs

/-- Python `oct(n)`. -/
def pyOct (n : Int) : String :=
  (if n < 0 then "-" else "") ++ "0o" ++ (Nat.toDigits 8 n.natAbs).asString

/-- Python `hex(n)` (lowercase digits). -/
def pyHex (n : Int) : String :=
  (if n < 0 then "-" else "") ++ "0x" ++ (Nat.toDigits 16 n.natAbs).asString

/-! ### Python `float(...)` and its `repr`: exact IEEE-754 binary64 -/

/-- A finite binary64: value `(-1)^sign * sig * 2^exp`, canonical form
(`exp = -1074` for zero and subnormals, otherwise `2^52 ≤ sig < 2^53`). -/
structure F64 where
  sign : Bool
  sig : Nat
  exp : Int
deriving DecidableEq, Repr

/-- A Python float. -/
inductive PyFloat where
  | finite (f : F64)
  | inf (sign : Bool)
  | nan
deriving DecidableEq, Repr

/-- Number of bits of `n` (`0` for `0`), fuelled; `fuel := n` suffices. -/
def bitlenF : Nat → Nat → Nat
  | _, 0 => 0
  | 0, _ + 1 => 0
  | f + 1, n + 1 => 1 + bitlenF f ((n + 1) / 2)

def bitlen (n : Nat) : Nat := bitlenF n n

/-- Does `p / q ≥ 2^k` hold (for positive `p`, `q`)? -/
def rge2pow (p q : Nat) (k : Int) : Bool :=
  if 0 ≤ k then q * 2 ^ k.toNat ≤ p else q ≤ p * 2 ^ (-k).toNat

/-- `⌊log2 (p / q)⌋` for positive `p`, `q`: the bit-length guess is off by
at most one, fixed by one exact comparison. -/
def floorLogRat (p q : Nat) : Int :=
  let g : Int := (bitlen p : Int) - (bitlen q : Int)
  if rge2pow p q g then g else g - 1

/-- Round `num / den` to the nearest integer, ties to even. -/
def rndNE (num den : Nat) : Nat :=
  let d := num / den
  let r := num % den
  if 2 * r < den then d
  else if den < 2 * r then d + 1
  else if d % 2 = 0 then d else d + 1

/-- Correctly rounded conversion of the decimal `(-1)^neg * n * 10^m` to
binary64, round-to-nearest-even, overflowing to infinity (as CPython's
`float(str)` does: it saturates, it does not raise). -/
def ratToF64 (neg : Bool) (n : Nat) (m : Int) : PyFloat :=
  if n = 0 then .finite ⟨neg, 0, -1074⟩
  else
    let (p, q) := if 0 ≤ m then (n * 10 ^ m.toNat, 1) else (n, 10 ^ (-m).toNat)
    let k := floorLogRat p q
    let e0 : Int := max (k - 52) (-1074)
    let (num, den) :=
      if 0 ≤ e0 then (p, q * 2 ^ e0.toNat) else (p * 2 ^ (-e0).toNat, q)
    let sg := rndNE num den
    let (sg, e1) := if sg = 2 ^ 53 then (2 ^ 52, e0 + 1) else (sg, e0)
    if 971 < e1 then .inf neg else .finite ⟨neg, sg, e1⟩

/-- Compare `sig * 2^e` with `10^t` exactly. -/
def cmpPow10 (sig : Nat) (e t : Int) : Ordering :=
  let a := sig * (if 0 ≤ e then 2 ^ e.toNat else 1) *
    (if t < 0 then 10 ^ (-t).toNat else 1)
  let b := (if 0 ≤ t then 10 ^ t.toNat else 1) *
    (if e < 0 then 2 ^ (-e).toNat else 1)
  compare a b

/-- Adjust a decimal-exponent guess `g` until
`10^(g-1) ≤ sig * 2^e < 10^g`; the guess is within 2, fuel 8 suffices. -/
def decptGo (sig : Nat) (e : Int) : Nat → Int → Int
  | 0, g => g
  | f + 1, g =>
    if (cmpPow10 sig e (g - 1)).isLT then decptGo sig e f (g - 1)
    else if (cmpPow10 sig e g).isLT then g
    else decptGo sig e f (g + 1)

/-- Decimal point position of `sig * 2^e` (`sig > 0`): the `p` with
`10^(p-1) ≤ sig * 2^e < 10^p`. -/
def decptOf (sig : Nat) (e : Int) : Int :=
  let b : Int := (bitlen sig : Int) + e - 1
  decptGo sig e 8 ((b * 30103).fdiv 100000 + 1)

/-- Round `sig * 2^e` to `k` significant decimal digits given its decimal
point `p`; returns the digit value and the (possibly bumped) point. -/
def digitsAt (sig : Nat) (e : Int) (p : Int) (k : Nat) : Nat × Int :=
  let t : Int := (k : Int) - p
  let num := sig * (if 0 ≤ e then 2 ^ e.toNat else 1) *
    (if 0 ≤ t then 10 ^ t.toNat else 1)
  let den := (if e < 0 then 2 ^ (-e).toNat else 1) *
    (if t < 0 then 10 ^ (-t).toNat else 1)
  let d := rndNE num den
  if d = 10 ^ k then (10 ^ (k - 1), p + 1) else (d, p)

/-- Shortest round-tripping decimal of the positive binary64
`sig * 2^e`: try 1, 2, ... significant digits and return the first
rounding that converts back to the same float (17 always does). -/
def shortestGo (sig : Nat) (e : Int) (p : Int) : Nat → Nat → Nat × Int
  | 0, _ => digitsAt sig e p 17
  | f + 1, k =>
    let (d, p') := digitsAt sig e p k
    if ratToF64 false d (p' - k) = .finite ⟨false, sig, e⟩ then (d, p')
    else shortestGo sig e p f (k + 1)

def shortest (sig : Nat) (e : Int) : Nat × Int :=
  shortestGo sig e (decptOf sig e) 17 1

/-- Two-digit-minimum decimal rendering of a scientific exponent. -/
def pad2 (n : Nat) : String :=
  let s := natDec n
  if s.length < 2 then "0" ++ s else s

/-- CPython `repr(float)` formatting from shortest digits `d` and decimal
point `p`: fixed notation for `-3 ≤ p ≤ 16`, scientific otherwise. -/
def fmtShort (neg : Bool) (d : Nat) (p : Int) : String :=
  let ds := natDec d
  let k : Int := ds.length
  let sgn := if neg then "-" else ""
  if -3 ≤ p && p ≤ 16 then
    if p ≤ 0 then sgn ++ "0." ++ (List.replicate (-p).toNat '0').asString ++ ds
    else if k ≤ p then
      sgn ++ ds ++ (List.replicate (p - k).toNat '0').asString ++ ".0"
    else sgn ++ (ds.data.take p.toNat).asString ++ "." ++
      (ds.data.drop p.toNat).asString
  else
    let ex := p - 1
    let head := (ds.data.take 1).asString
    let tail := (ds.data.drop 1).asString
    sgn ++ head ++ (if tail = "" then "" else "." ++ tail) ++ "e" ++
      (if ex < 0 then "-" else "+") ++ pad2 ex.natAbs

/-- Python `repr` of a float. -/
def pyReprFloat : PyFloat → String
  | .nan => "nan"
  | .inf neg => (if neg then "-" else "") ++ "inf"
  | .finite ⟨neg, sig, e⟩ =>
    if sig = 0 then (if neg then "-" else "") ++ "0.0"
    else
      let (d, p) := shortest sig e
      fmtShort neg d p

/-- Python `float(s)`: strip, optional sign, then `inf`/`infinity`/`nan`
(case-insensitive) or a decimal literal
`digits [. digits] [(e|E) [sign] digits]` with underscores between
digits; anything else is a `ValueError`. -/
def pyParseFloat (s : String) : Except Err PyFloat :=
  let l := pyStrip s.data
  let (neg, l) := scanSign l
  let low := l.map Char.toLower
  if low = "inf".data || low = "infinity".data then .ok (.inf neg)
  else if low = "nan".data then .ok .nan
  else
    let (ip, ipc, r1) := scanDigits 10 l
    let (fp, fpc, r2) :=
      match r1 with
      | '.' :: rest => scanDigits 10 rest
      | _ => (0, 0, r1)
    if ipc + fpc = 0 then .error .valueError
    else
      match r2 with
      | [] => .ok (ratToF64 neg (ip * 10 ^ fpc + fp) (-(fpc : Int)))
      | c :: rest =>
        if c = 'e' || c = 'E' then
          let (eneg, rest) := scanSign rest
          let (ev, ec, rest) := scanDigits 10 rest
          if ec = 0 || rest ≠ [] then .error .valueError
          else
            let ex : Int := if eneg then -(ev : Int) else (ev : Int)
            .ok (ratToF64 neg (ip * 10 ^ fpc + fp) (ex - (fpc : Int)))
        else .error .valueError

/-! ### Scalar normalizer -/

/-- `yaml_int`: keep the numeral base of the literal (`0o`/`0x` prefixes
re-rendered in the same base), everything else decimal; `int(...)` can
raise `ValueError`. -/
def yaml_int (s : String) : Except Err String :=
  if "0o".data.isPrefixOf s.data then (pyParseIntBase 8 s).map pyOct
  else if "0x".data.isPrefixOf s.data then (pyParseIntBase 16 s).map pyHex
  else (pyParseInt s).map pyReprInt

/-- `.replace("\x27", "\x27\x27")` — doubling of single quotes (dead in
practice: it only runs on strings that contain no single quote). -/
def doubleQuotes : List Char → List Char
  | [] => []
  | c :: rest =>
    if c = '\x27' then '\x27' :: '\x27' :: doubleQuotes rest
    else c :: doubleQuotes rest

/-- `yaml_str`: double-quote when the text holds a backslash or a single
quote, otherwise single-quote (keeping the source's quote-doubling call,
a no-op on this branch). -/
def yaml_str (s : String) : String :=
  if s.data.contains '\\' || s.data.contains '\x27' then "\"" ++ s ++ "\""
  else
    let s2 := (doubleQuotes s.data).asString
    "\x27" ++ s2 ++ "\x27"

/-- `_is_obvious_mapping_key`: `re.fullmatch` of `[_a-zA-Z0-9]+$`, i.e. a
nonempty all-word-character string (the `$` cannot extend the match past
a trailing newline under `fullmatch`). -/
def is_obvious_mapping_key (s : String) : Bool :=
  !s.data.isEmpty && s.data.all (fun c => c = '_' || c.isAlpha || c.isDigit)

/-- `yaml_mapping_key`: bare when obvious, quoted via `yaml_str`
otherwise. -/
def yaml_mapping_key (s : String) : String :=
  if is_obvious_mapping_key s then s else yaml_str s

/-- `normalize_scalar`: canonical rendering per declared type; the
commented-out `bool` entry of the source's `typemap` means `bool` (like
every other unknown type) passes through unchanged. -/
def normalize_scalar (type_ : String) (value : String) : Except Err String :=
  if type_ = "float" then (pyParseFloat value).map pyReprFloat
  else if type_ = "int" then yaml_int value
  else if type_ = "null" then .ok "null"
  else if type_ = "str" then .ok (yaml_str value)
  else .ok value

/-- `str.rstrip()` (ASCII whitespace). -/
def pyRstrip (s : String) : String :=
  (s.data.reverse.dropWhile pyIsSpace).reverse.asString

/-- `clean_comment`: strip trailing whitespace, then guarantee a single
`#` prefix with one space unless the text already starts with `#` or a
space. -/
def clean_comment (commentval : String) : String :=
  let c := pyRstrip commentval
  if "#".data.isPrefixOf c.data || " ".data.isPrefixOf c.data then "#" ++ c
  else "# " ++ c

/-! ### Layout engine -/

/-- The transient state of the `normalize` token walk. -/
structure WalkSt where
  formatted : String
  one_doc : Bool
  /-- `next_value_is_map_key` -/
  keyFlag : Bool
  /-- `next_value_is_map_val` -/
  valFlag : Bool
  prev : Token
  prev_printable : Token
  /-- Open collections; Python appends/pops at the right end and reads
  `stack[-1]`, modelled here with the top at the head. -/
  stack : List String
deriving DecidableEq, Repr

def initTok : Token := ⟨.nonetype, 0, 0, none⟩

def initSt : WalkSt := ⟨"", false, false, false, initTok, initTok, []⟩

def isCollectionTag : Option String → Bool
  | some v => v = "map" || v = "seq"
  | none => false

def isScalarTag : Option String → Bool
  | some v => v = "bool" || v = "float" || v = "int" || v = "null" || v = "str"
  | none => false

/-- `INDENT_WITH` repeated `level - 1` times (Python's negative repeat
count at level 0 gives the empty string, as does `Nat` subtraction). -/
def indentOf (level : Nat) : String :=
  (List.replicate (level - 1) "  ").foldl (· ++ ·) ""

def isCommentType (t : TokType) : Bool :=
  t = .commentLine || t = .commentInline

def isPrintableType (t : TokType) : Bool :=
  t = .commentInline || t = .commentLine || t = .emptyLine || t = .tag ||
    t = .value

/-- The `prev` / `prev_printable` bookkeeping run at the end of every loop
iteration: comments never become `prev`, only printables become
`prev_printable` (the two assignments touch distinct fields, so they are
combined into one record update). -/
def updatePrev (tok : Token) (st : WalkSt) : WalkSt :=
  { st with
    prev := if isCommentType tok.type_ then st.prev else tok
    prev_printable :=
      if isPrintableType tok.type_ then tok else st.prev_printable }

/-- The body of one iteration of `normalize`'s token loop, before the
`prev` bookkeeping. -/
def stepCore (tok : Token) (st : WalkSt) : Except Err WalkSt :=
  let level := st.stack.length
  let coll : Option String := st.stack.head?
  let indent := indentOf level
  match tok.type_ with
  | .document =>
    if st.one_doc then .error .sanitizeError
    else .ok { st with one_doc := true }
  | .tag =>
    if !(isCollectionTag tok.value || isScalarTag tok.value) then
      .error .sanitizeError
    else
      let stack' :=
        if isCollectionTag tok.value then tok.value.getD "" :: st.stack
        else st.stack
      let (valFlag', nl, ind) :=
        if st.valFlag then (false, "", if isScalarTag tok.value then " " else "")
        else if st.formatted = "" then (st.valFlag, "", indent)
        else (st.valFlag, "\n", indent)
      let f1 := st.formatted ++ nl ++ ind
      let f2 := if coll = some "seq" then f1 ++ "- " else f1
      .ok { st with formatted := f2, stack := stack', valFlag := valFlag' }
  | .emptyLine =>
    if st.formatted ≠ "" && st.prev_printable.type_ ≠ .emptyLine then
      .ok { st with formatted := st.formatted ++ "\n" }
    else .ok st
  | .commentLine =>
    let f1 := if st.formatted ≠ "" then st.formatted ++ "\n" else st.formatted
    .ok { st with
      formatted := f1 ++ indent ++ clean_comment (tok.value.getD "") }
  | .commentInline =>
    .ok { st with
      formatted := st.formatted ++ "  " ++ clean_comment (tok.value.getD "") }
  | .value =>
    if st.prev.type_ ≠ .tag then .error .parseError
    else if !st.keyFlag then
      -- `prev` is a tag here, so its `value` is set; `getD` is a
      -- technicality of the `Option`.
      match normalize_scalar (st.prev.value.getD "") (tok.value.getD "") with
      | .error e => .error e
      | .ok r => .ok { st with formatted := st.formatted ++ r }
    else if st.prev.value ≠ some "str" then .error .sanitizeError
    else
      let f1 := st.formatted ++ yaml_mapping_key (tok.value.getD "") ++ ":"
      .ok { st with keyFlag := false, formatted := f1 }
  | .seqClose =>
    let f1 :=
      if st.prev.type_ = .seqOpen then st.formatted ++ " []" else st.formatted
    match st.stack with
    | [] => .error .indexError
    | _ :: tl => .ok { st with formatted := f1, stack := tl }
  | .mapClose =>
    let f1 :=
      if st.prev.type_ = .mapOpen then st.formatted ++ " \x7b\x7d"
      else st.formatted
    match st.stack with
    | [] => .error .indexError
    | _ :: tl => .ok { st with formatted := f1, stack := tl }
  | .mapVal => .ok { st with valFlag := true }
  | .mapKey =>
    if st.keyFlag then .error .parseError else .ok { st with keyFlag := true }
  | _ => .ok st

/-- One loop iteration, `prev` bookkeeping included. -/
def step (tok : Token) (st : WalkSt) : Except Err WalkSt :=
  (stepCore tok st).map (updatePrev tok)

/-- The token loop. -/
def walk : List Token → WalkSt → Except Err WalkSt
  | [], st => .ok st
  | t :: ts, st =>
    match step t st with
    | .ok st' => walk ts st'
    | .error e => .error e

/-- `normalize(yaml)`: walk the token stream; a `TokenError` pending in
the lazy tokenizer surfaces when the loop pulls past the last produced
token; then the single-document check, then the final newline. -/
def normalize (yaml : String) : Except Err String :=
  let lx := tokenize yaml.data
  match walk lx.toks initSt with
  | .error e => .error e
  | .ok st =>
    if !lx.ok then .error .tokenError
    else if !st.one_doc then .error .parseError
    else .ok (st.formatted ++ "\n")

/-- Number of document-marker tokens in a token stream. -/
def countDoc (ts : List Token) : Nat :=
  ts.countP (fun t => t.type_ == .document)

/-- The module-level `config` dict (`double_check`, `fix_in_place`),
which only the CLI reads and writes. -/
structure Config where
  double_check : Bool
  fix_in_place : Bool
deriving DecidableEq, Repr

/-- A call of `normalize` in a process whose global `config` holds `cfg`:
the body of `normalize` never reads `config`, so the parameter is
ignored, mirroring the source. -/
def normalizeInEnv (_cfg : Config) (yaml : String) : Except Err String :=
  normalize yaml

/-! ## Claims -/

/-! ### Error-shape lemmas for the scalar normalizer (for C2 and C6) -/

theorem pyParseInt_error (s : String) (e : Err)
    (h : pyParseInt s = .error e) : e = .valueError := by
  simp only [pyParseInt] at h
  (repeat' split at h) <;> (try cases h) <;> simp_all

theorem pyParseIntBase_error (b : Nat) (s : String) (e : Err)
    (h : pyParseIntBase b s = .error e) : e = .valueError := by
  simp only [pyParseIntBase] at h
  (repeat' split at h) <;> (try cases h) <;> simp_all

theorem pyParseFloat_error (s : String) (e : Err)
    (h : pyParseFloat s = .error e) : e = .valueError := by
  simp only [pyParseFloat] at h
  (repeat' split at h) <;> (try cases h) <;> simp_all

theorem yaml_int_error (s : String) (e : Err)
    (h : yaml_int s = .error e) : e = .valueError := by
  unfold yaml_int at h
  split at h
  · cases hp : pyParseIntBase 8 s with
    | error e' => rw [hp] at h; cases h; exact pyParseIntBase_error 8 s e hp
    | ok n => rw [hp] at h; cases h
  · split at h
    · cases hp : pyParseIntBase 16 s with
      | error e' => rw [hp] at h; cases h; exact pyParseIntBase_error 16 s e hp
      | ok n => rw [hp] at h; cases h
    · cases hp : pyParseInt s with
      | error e' => rw [hp] at h; cases h; exact pyParseInt_error s e hp
      | ok n => rw [hp] at h; cases h

/-- The scalar normalizer can only fail with the `ValueError` of
`int(...)` / `float(...)`. -/
theorem normalize_scalar_error (ty v : String) (e : Err)
    (h : normalize_scalar ty v = .error e) : e = .valueError := by
  unfold normalize_scalar at h
  split at h
  · cases hp : pyParseFloat v with
    | error e' => rw [hp] at h; cases h; exact pyParseFloat_error v e hp
    | ok f => rw [hp] at h; cases h
  · split at h
    · exact yaml_int_error v e h
    · split at h
      · cases h
      · split at h <;> cases h


/-- C1 counterexample: the spec's sixth canonicalization example fails on
the code: `yaml_str` double-quotes any text containing a single quote, so
`normalize_scalar` maps the string `it's` to `"it's"`, not to the
spec's single-quoted `'it''s'`. -/
theorem c1_counterexample :
    normalize_scalar "str" "it\x27s" = .ok "\"it\x27s\"" ∧
    ("\"it\x27s\"" : String) ≠ "\x27it\x27\x27s\x27" :=
  ⟨rfl, by decide⟩

/-- C1 (amended): the scalar normalizer's canonicalization examples,
with the last one corrected: `0x1A` → `0x1a`, `012` → `12`, `1.0` →
`1.0`, null → `null`, `a\"b` double-quoted unchanged, and `it's` also
double-quoted (the single-quoting branch only ever sees strings with no
single quote, so its quote-doubling never fires). -/
theorem c1_scalar_canonicalization :
    normalize_scalar "int" "0x1A" = .ok "0x1a" ∧
    normalize_scalar "int" "012" = .ok "12" ∧
    normalize_scalar "float" "1.0" = .ok "1.0" ∧
    normalize_scalar "null" "" = .ok "null" ∧
    normalize_scalar "str" "a\\\"b" = .ok "\"a\\\"b\"" ∧
    normalize_scalar "str" "it\x27s" = .ok "\"it\x27s\"" :=
  ⟨rfl, rfl, rfl, rfl, rfl, rfl⟩

/-- C2 counterexample: a close token with no open collection on the stack
fails with the untyped `IndexError` of `list.pop`, and an `int`-tagged
value whose text is no numeral fails with the untyped `ValueError` of
`int(...)` — neither is one of the three declared error kinds. -/
theorem c2_counterexample :
    normalize "---]" = .error .indexError ∧
    normalize "--- !!int \"a\"" = .error .valueError :=
  ⟨rfl, rfl⟩

/-- A failed `step` is a failed `stepCore`. -/
theorem step_error_elim (tok : Token) (st : WalkSt) (e : Err)
    (h : step tok st = .error e) : stepCore tok st = .error e := by
  unfold step at h
  cases hc : stepCore tok st with
  | error e' => rw [hc] at h; cases h; rfl
  | ok st0 => rw [hc] at h; cases h

/-- The scalar normalizer fails only for the `float` and `int` types. -/
theorem normalize_scalar_error_type (ty v : String) (e : Err)
    (h : normalize_scalar ty v = .error e) : ty = "float" ∨ ty = "int" := by
  unfold normalize_scalar at h
  (repeat' split at h) <;> simp_all

/-- The only token that can raise `IndexError` is a close token arriving
with an empty nesting stack. -/
theorem stepCore_indexError (tok : Token) (st : WalkSt)
    (h : stepCore tok st = .error .indexError) :
    (tok.type_ = .seqClose ∨ tok.type_ = .mapClose) ∧ st.stack = [] := by
  unfold stepCore at h
  obtain ⟨tt, l, c, v⟩ := tok
  cases tt <;> simp only at h <;> (repeat' split at h) <;>
    (try cases h) <;> (try simp_all) <;>
    exact absurd (normalize_scalar_error _ _ _ (by assumption)) (by decide)

/-- The only token that can raise `ValueError` is a value token rendered
as a scalar (not as a key) whose preceding tag is `int` or `float`. -/
theorem stepCore_valueError (tok : Token) (st : WalkSt)
    (h : stepCore tok st = .error .valueError) :
    tok.type_ = .value ∧ st.prev.type_ = .tag ∧ st.keyFlag = false ∧
      (st.prev.value = some "float" ∨ st.prev.value = some "int") := by
  unfold stepCore at h
  obtain ⟨tt, l, c, v⟩ := tok
  cases tt <;> simp only at h <;> (repeat' split at h) <;>
    (try cases h) <;> (try simp_all)
  all_goals {
    have hty := normalize_scalar_error_type _ _ _ (by assumption)
    cases hv : st.prev.value with
    | none => simp [hv] at hty
    | some a =>
      simp only [hv, Option.getD_some] at hty
      simp_all }

/-- C2 (amended): every run of `normalize` either returns an output
string or fails with one of the three declared error kinds or with one
of the two untyped built-in exceptions reachable from its code — and
those two arise exactly where the counterexample shows: `IndexError`
only from a close token popping an empty stack, `ValueError` only from
an `int`/`float`-tagged value whose text fails numeral parsing. -/
theorem c2_error_totality (s : String) (tok : Token) (st : WalkSt) :
    ((∃ out, normalize s = .ok out) ∨
      normalize s = .error .tokenError ∨
      normalize s = .error .parseError ∨
      normalize s = .error .sanitizeError ∨
      normalize s = .error .indexError ∨
      normalize s = .error .valueError) ∧
    (step tok st = .error .indexError →
      (tok.type_ = .seqClose ∨ tok.type_ = .mapClose) ∧ st.stack = []) ∧
    (step tok st = .error .valueError →
      tok.type_ = .value ∧ st.prev.type_ = .tag ∧ st.keyFlag = false ∧
        (st.prev.value = some "float" ∨ st.prev.value = some "int")) := by
  refine ⟨?_, ?_, ?_⟩
  · cases h : normalize s with
    | ok out => exact .inl ⟨out, rfl⟩
    | error e => cases e <;> simp
  · intro h
    exact stepCore_indexError tok st (step_error_elim tok st _ h)
  · intro h
    exact stepCore_valueError tok st (step_error_elim tok st _ h)

/-- C2 witness: the characterization applied to a bare close token on an
empty stack and to an `int`-tagged non-numeral value. -/
theorem c2_error_totality_witness :
    ((TokType.seqClose = TokType.seqClose ∨
        TokType.seqClose = TokType.mapClose) ∧ initSt.stack = []) ∧
    ((TokType.value : TokType) = .value ∧
      (Token.mk .tag 1 1 (some "int")).type_ = .tag ∧ false = false ∧
      ((some "int" : Option String) = some "float" ∨
        (some "int" : Option String) = some "int")) :=
  ⟨(c2_error_totality "]" ⟨.seqClose, 1, 1, none⟩ initSt).2.1 rfl,
   (c2_error_totality "]" ⟨.value, 1, 2, some "a"⟩
      ⟨"", true, false, false, ⟨.tag, 1, 1, some "int"⟩, initTok, []⟩).2.2 rfl⟩

/-- C3 counterexample: an input whose last line is blank yields an output
with two trailing newlines (the blank line is preserved and the final
newline appended after it), not exactly one. -/
theorem c3_counterexample :
    normalize "---\n!!null \"\"\n\n" = .ok "null\n\n" ∧
    ("null\n\n" : String) = "null" ++ "\n" ++ "\n" :=
  ⟨rfl, rfl⟩

/-- C3 (amended): every successful `normalize` output ends in at least
one newline (the returned text is always the accumulated output plus one
appended newline); inputs with trailing blank lines can make it end in
more than one. -/
theorem c3_trailing_newline (s out : String) (h : normalize s = .ok out) :
    ∃ f, out = f ++ "\n" := by
  simp only [normalize] at h
  split at h
  · cases h
  · split at h
    · cases h
    · split at h
      · cases h
      · exact ⟨_, (Except.ok.inj h).symm⟩

/-- C3 witness: the amended theorem applied to the one-marker input. -/
theorem c3_trailing_newline_witness : ∃ f, ("\n" : String) = f ++ "\n" :=
  c3_trailing_newline "---" "\n" rfl

/-- C9 counterexample: after the marker tokens `?` then `:` the walk
reaches a state with `next_value_is_map_key` and `next_value_is_map_val`
both true, inside a run that then terminates successfully. -/
theorem c9_counterexample :
    walk (tokenize "---?:".data).toks initSt =
      .ok ⟨"", true, true, true, ⟨.mapVal, 1, 5, none⟩, initTok, []⟩ ∧
    normalize "---?:" = .ok "\n" :=
  ⟨rfl, rfl⟩

/-- C10: `normalize` is deterministic and independent of the process-wide
`config` dictionary: its body never reads `config`, so a call under any
two configurations gives the same output, and repeating a call gives the
same output. -/
theorem c10_deterministic_selfcontained (c1 c2 : Config) (s : String) :
    normalizeInEnv c1 s = normalizeInEnv c2 s ∧
    normalizeInEnv c1 s = normalizeInEnv c1 s :=
  ⟨rfl, rfl⟩

/-! ### Step lemmas about the document flag (for C4) -/

theorem updatePrev_one_doc (tok : Token) (st : WalkSt) :
    (updatePrev tok st).one_doc = st.one_doc := rfl

theorem step_doc_err (tok : Token) (st : WalkSt) (hd : tok.type_ = .document)
    (h1 : st.one_doc = true) : step tok st = .error .sanitizeError := by
  unfold step stepCore
  rw [hd, h1]
  rfl

/-- A successful `step` is a successful `stepCore` followed by the `prev`
bookkeeping. -/
theorem step_ok_elim (tok : Token) (st st' : WalkSt)
    (h : step tok st = .ok st') :
    ∃ st0, stepCore tok st = .ok st0 ∧ st' = updatePrev tok st0 := by
  unfold step at h
  cases hc : stepCore tok st with
  | error e => rw [hc] at h; cases h
  | ok st0 => rw [hc] at h; exact ⟨st0, rfl, (Except.ok.inj h).symm⟩

theorem stepCore_one_doc (tok : Token) (st st0 : WalkSt)
    (h : stepCore tok st = .ok st0) :
    st0.one_doc = (st.one_doc || tok.type_ == .document) := by
  unfold stepCore at h
  obtain ⟨tt, l, c, v⟩ := tok
  cases tt <;> simp only at h <;> (repeat' split at h) <;>
    (try cases h) <;> simp_all

theorem step_one_doc (tok : Token) (st st' : WalkSt)
    (h : step tok st = .ok st') :
    st'.one_doc = (st.one_doc || tok.type_ == .document) := by
  obtain ⟨st0, hc, rfl⟩ := step_ok_elim tok st st' h
  rw [updatePrev_one_doc]
  exact stepCore_one_doc tok st st0 hc

/-- After a successful walk of a stream with no document marker, the flag
is unchanged. -/
theorem walk_one_doc_zero (ts : List Token) (st st' : WalkSt)
    (h : walk ts st = .ok st') (hz : countDoc ts = 0) :
    st'.one_doc = st.one_doc := by
  induction ts generalizing st with
  | nil => cases h; rfl
  | cons t ts ih =>
    unfold walk at h
    cases hs : step t st with
    | error e => rw [hs] at h; cases h
    | ok st1 =>
      rw [hs] at h
      have hd : (t.type_ == TokType.document) = false := by
        by_contra hb
        simp only [Bool.not_eq_false] at hb
        simp [countDoc, List.countP_cons, hb] at hz
      have h1 := step_one_doc t st st1 hs
      rw [hd, Bool.or_false] at h1
      have hz' : countDoc ts = 0 := by
        simpa [countDoc, List.countP_cons, hd] using hz
      rw [ih st1 h hz', h1]

/-- A walk that still has a document marker ahead while the flag is
already set must fail. -/
theorem walk_doc_err_one (ts : List Token) (st : WalkSt)
    (h1 : st.one_doc = true) (hc : 1 ≤ countDoc ts) :
    ∃ e, walk ts st = .error e := by
  induction ts generalizing st with
  | nil => simp [countDoc] at hc
  | cons t ts ih =>
    unfold walk
    by_cases hd : t.type_ = .document
    · rw [step_doc_err t st hd h1]
      exact ⟨.sanitizeError, rfl⟩
    · cases hs : step t st with
      | error e => exact ⟨e, rfl⟩
      | ok st1 =>
        have heq : (t.type_ == TokType.document) = false := by
          simpa using hd
        have h1' : st1.one_doc = true := by
          rw [step_one_doc t st st1 hs, h1]; rfl
        have hc' : 1 ≤ countDoc ts := by
          simpa [countDoc, List.countP_cons, heq] using hc
        exact ih st1 h1' hc'

/-- A walk of a stream holding two document markers always fails. -/
theorem walk_doc_err_two (ts : List Token) (st : WalkSt)
    (hc : 2 ≤ countDoc ts) : ∃ e, walk ts st = .error e := by
  induction ts generalizing st with
  | nil => simp [countDoc] at hc
  | cons t ts ih =>
    unfold walk
    cases hs : step t st with
    | error e => exact ⟨e, rfl⟩
    | ok st1 =>
      by_cases hd : t.type_ = .document
      · have h1 : st1.one_doc = true := by
          rw [step_one_doc t st st1 hs, hd]
          simp
        have hc' : 1 ≤ countDoc ts := by
          have : countDoc (t :: ts) = countDoc ts + 1 := by
            simp [countDoc, List.countP_cons, hd]
          omega
        exact walk_doc_err_one ts st1 h1 hc'
      · have heq : (t.type_ == TokType.document) = false := by
          simpa using hd
        have hc' : 2 ≤ countDoc ts := by
          simpa [countDoc, List.countP_cons, heq] using hc
        exact ih st1 hc'

/-- C4 counterexample: an input whose stream carries two markers need not
fail with the policy error, and one with no marker need not fail with the
structural error: an earlier token can raise something else first.  Here
`---?  ?---` has two document markers yet fails with `ParseError` (the
second `?` arrives while a key is already expected), and `]` has none
yet fails with `IndexError`. -/
theorem c4_counterexample :
    countDoc (tokenize "---?  ?---".data).toks = 2 ∧
    normalize "---?  ?---" = .error .parseError ∧
    countDoc (tokenize "]".data).toks = 0 ∧
    normalize "]" = .error .indexError :=
  ⟨rfl, rfl, rfl, rfl⟩

/-- C4 (amended): an input whose token stream carries two document
markers never normalizes successfully (the second marker raises
`SanitizeError` when the walk reaches it, though an earlier token may
raise a different error first), and an input whose stream carries no
document marker never normalizes successfully (`ParseError` at end of
input when nothing else failed earlier); `--- ---` and `!!null ""` show
the two specific errors. -/
theorem c4_single_document (s : String) :
    (2 ≤ countDoc (tokenize s.data).toks → (normalize s).isOk = false) ∧
    (countDoc (tokenize s.data).toks = 0 → (normalize s).isOk = false) ∧
    normalize "--- ---" = .error .sanitizeError ∧
    normalize "!!null \"\"" = .error .parseError := by
  refine ⟨?_, ?_, rfl, rfl⟩
  · intro h2
    obtain ⟨e, he⟩ := walk_doc_err_two (tokenize s.data).toks initSt h2
    simp [normalize, he, Except.isOk, Except.toBool]
  · intro h0
    simp only [normalize]
    cases hw : walk (tokenize s.data).toks initSt with
    | error e => simp [Except.isOk, Except.toBool]
    | ok st =>
      have h1 : st.one_doc = false := walk_one_doc_zero _ _ _ hw h0
      simp only [h1, Bool.not_false]
      split <;> rfl

/-- C4 witness: the amended theorem applied at the two-marker input
`--- ---` and the zero-marker input `!!null ""`. -/
theorem c4_single_document_witness :
    (normalize "--- ---").isOk = false ∧
    (normalize "!!null \"\"").isOk = false :=
  ⟨(c4_single_document "--- ---").1 (by decide),
   (c4_single_document "!!null \"\"").2.1 (by decide)⟩

/-! ### Claims C5, C6, C7, C9 -/

/-- C5: when the engine expects a mapping key, a value token whose
preceding tag is not `str` raises `SanitizeError`; with a `str` tag the
key is appended as `yaml_mapping_key` text plus `:`; and
`_is_obvious_mapping_key` holds exactly for the nonempty all
`[A-Za-z0-9_]` strings (so exactly those keys are emitted bare, all
others quoted via `yaml_str`). -/
theorem c5_nonstring_mapping_key (tok : Token) (st : WalkSt)
    (hv : tok.type_ = .value) (hk : st.keyFlag = true)
    (hp : st.prev.type_ = .tag) :
    (st.prev.value ≠ some "str" → step tok st = .error .sanitizeError) ∧
    (st.prev.value = some "str" →
      step tok st =
        .ok { st with
              keyFlag := false
              formatted :=
                st.formatted ++ yaml_mapping_key (tok.value.getD "") ++ ":"
              prev := tok
              prev_printable := tok }) ∧
    (∀ k : String, is_obvious_mapping_key k = true ↔
      k.data ≠ [] ∧ ∀ c ∈ k.data,
        c = '_' ∨ ('a' ≤ c ∧ c ≤ 'z') ∨ ('A' ≤ c ∧ c ≤ 'Z') ∨
          ('0' ≤ c ∧ c ≤ '9')) ∧
    (∀ k : String, yaml_mapping_key k =
      if is_obvious_mapping_key k then k else yaml_str k) := by
  refine ⟨?_, ?_, ?_, fun k => rfl⟩
  · intro hne
    unfold step stepCore
    rw [hv]
    simp [hp, hk, hne, Except.map]
  · intro he
    unfold step stepCore updatePrev
    rw [hv]
    simp [hp, hk, he, isCommentType, isPrintableType, Except.map]
  · intro k
    have hch : ∀ c : Char, ((c = '_' || c.isAlpha || c.isDigit) = true) ↔
        (c = '_' ∨ ('a' ≤ c ∧ c ≤ 'z') ∨ ('A' ≤ c ∧ c ≤ 'Z') ∨
          ('0' ≤ c ∧ c ≤ '9')) := by
      intro c
      simp [Char.isAlpha, Char.isLower, Char.isUpper, Char.isDigit,
        Char.le_def, UInt32.le_def]
      tauto
    simp [is_obvious_mapping_key, List.all_eq_true, hch, List.isEmpty_iff]

/-- C5 witness: a value token under the key flag, once after an `int`
tag and once after a `str` tag. -/
theorem c5_nonstring_mapping_key_witness :
    step ⟨.value, 1, 1, some "k"⟩
      ⟨"", false, true, false, ⟨.tag, 1, 1, some "int"⟩, initTok, []⟩ =
        .error .sanitizeError ∧
    step ⟨.value, 1, 1, some "k"⟩
      ⟨"", false, true, false, ⟨.tag, 1, 1, some "str"⟩, initTok, []⟩ =
        .ok ⟨"k:", false, false, false, ⟨.value, 1, 1, some "k"⟩,
          ⟨.value, 1, 1, some "k"⟩, []⟩ :=
  ⟨(c5_nonstring_mapping_key _ _ rfl rfl rfl).1 (by decide),
   (c5_nonstring_mapping_key _ _ rfl rfl rfl).2.1 rfl⟩

/-- `stepCore` never touches `prev` or `prev_printable`; only the final
bookkeeping does. -/
theorem stepCore_prev_pp (tok : Token) (st st0 : WalkSt)
    (h : stepCore tok st = .ok st0) :
    st0.prev = st.prev ∧ st0.prev_printable = st.prev_printable := by
  unfold stepCore at h
  obtain ⟨tt, l, c, v⟩ := tok
  cases tt <;> simp only at h <;> (repeat' split at h) <;>
    (try cases h) <;> simp_all

/-- C6 counterexample: in `---\n!!str #c\n"v"` the token immediately
before the value token is a comment, not a tag, yet `normalize` accepts
the value (the `prev` bookkeeping skips comments), so the run succeeds
instead of failing with `ParseError`. -/
theorem c6_counterexample :
    (tokenize "---\n!!str #c\n\"v\"".data).toks =
      [⟨.document, 1, 1, none⟩, ⟨.tag, 2, 1, some "str"⟩,
       ⟨.commentLine, 2, 7, some "c"⟩, ⟨.value, 3, 1, some "v"⟩] ∧
    normalize "---\n!!str #c\n\"v\"" = .ok "# c\x27v\x27\n" :=
  ⟨rfl, rfl⟩

/-- C6 (amended): a value token is accepted exactly when the most recent
non-comment token is a tag: with any other `prev` it raises `ParseError`;
after a tag it never raises `ParseError` (only `SanitizeError` or
`ValueError` remain possible); and each successful step updates `prev` to
the processed token unless that token is a comment. -/
theorem c6_value_requires_tag (tok : Token) (st : WalkSt)
    (hv : tok.type_ = .value) :
    (st.prev.type_ ≠ .tag → step tok st = .error .parseError) ∧
    (st.prev.type_ = .tag → ∀ e, step tok st = .error e →
      e = .sanitizeError ∨ e = .valueError) ∧
    (∀ t st', step t st = .ok st' →
      st'.prev = if isCommentType t.type_ then st.prev else t) := by
  refine ⟨?_, ?_, ?_⟩
  · intro hne
    unfold step stepCore
    rw [hv]
    simp [hne, Except.map]
  · intro hp e he
    unfold step stepCore at he
    rw [hv] at he
    simp only [hp, ne_eq, not_true_eq_false, if_false] at he
    (repeat' split at he) <;> simp_all [Except.map] <;>
      exact .inr (normalize_scalar_error _ _ _ (by assumption))
  · intro t st' hok
    obtain ⟨st0, hc, rfl⟩ := step_ok_elim t st st' hok
    have hpp := (stepCore_prev_pp t st st0 hc).1
    unfold updatePrev
    split <;> simp_all

/-- C6 witness: the amended theorem applied to a value token with a
non-tag `prev` (raises `ParseError`) and with a tag `prev` (cannot raise
`ParseError`). -/
theorem c6_value_requires_tag_witness :
    step ⟨.value, 1, 1, some "v"⟩ initSt = .error .parseError ∧
    (∀ e, step ⟨.value, 1, 1, some "v"⟩
      ⟨"", false, false, false, ⟨.tag, 1, 1, some "str"⟩, initTok, []⟩ =
        .error e → e = .sanitizeError ∨ e = .valueError) :=
  ⟨(c6_value_requires_tag _ initSt rfl).1 (by decide),
   (c6_value_requires_tag _ _ rfl).2.1 rfl⟩

/-- C7: a close token whose `prev` is the matching bare open token
appends the inline empty-collection form (`" []"` / `" {}"`, no newline,
so it lands on the line where the collection opened) and pops the
nesting stack; and the spec's end-to-end document renders `tags: []` on
one line. -/
theorem c7_empty_collection_collapse (tok : Token) (st : WalkSt)
    (hd : String) (tl : List String) :
    (tok.type_ = .seqClose → st.prev.type_ = .seqOpen → st.stack = hd :: tl →
      step tok st =
        .ok { st with
              formatted := st.formatted ++ " []"
              stack := tl
              prev := tok }) ∧
    (tok.type_ = .mapClose → st.prev.type_ = .mapOpen → st.stack = hd :: tl →
      step tok st =
        .ok { st with
              formatted := st.formatted ++ " \x7b\x7d"
              stack := tl
              prev := tok }) ∧
    normalize
        "---\n!!map \x7b\n  ? !!str \"name\"\n  : !!str \"Ann\",\n  ? !!str \"tags\"\n  : !!seq [],\n\x7d\n" =
      .ok "name: \x27Ann\x27\ntags: []\n" := by
  refine ⟨?_, ?_, rfl⟩
  · intro h1 h2 h3
    unfold step stepCore updatePrev
    rw [h1]
    simp [h2, h3, isCommentType, isPrintableType, Except.map]
  · intro h1 h2 h3
    unfold step stepCore updatePrev
    rw [h1]
    simp [h2, h3, isCommentType, isPrintableType, Except.map]

/-- C7 witness: an empty tagged sequence and an empty tagged mapping,
closed right after they open. -/
theorem c7_empty_collection_collapse_witness :
    step ⟨.seqClose, 1, 2, none⟩
      ⟨"", true, false, false, ⟨.seqOpen, 1, 1, none⟩, initTok, ["seq"]⟩ =
        .ok ⟨" []", true, false, false, ⟨.seqClose, 1, 2, none⟩, initTok, []⟩ ∧
    step ⟨.mapClose, 1, 2, none⟩
      ⟨"", true, false, false, ⟨.mapOpen, 1, 1, none⟩, initTok, ["map"]⟩ =
        .ok ⟨" \x7b\x7d", true, false, false, ⟨.mapClose, 1, 2, none⟩,
          initTok, []⟩ :=
  ⟨(c7_empty_collection_collapse _ _ "seq" [] |>.1) rfl rfl rfl,
   (c7_empty_collection_collapse _ _ "map" [] |>.2.1) rfl rfl rfl⟩

/-- C9 (amended): mutual exclusion of the two pending flags is preserved
by every step except the two marker tokens that break it: a
`map-value-marker` while a key is expected, or a `map-key-marker` while a
value is expected, each of which leaves both flags set (the original
unconditional invariant fails, see the counterexample). -/
theorem c9_flag_exclusion (tok : Token) (st st' : WalkSt)
    (h0 : ¬(st.keyFlag = true ∧ st.valFlag = true))
    (h1 : ¬(tok.type_ = .mapVal ∧ st.keyFlag = true))
    (h2 : ¬(tok.type_ = .mapKey ∧ st.valFlag = true))
    (hs : step tok st = .ok st') :
    ¬(st'.keyFlag = true ∧ st'.valFlag = true) := by
  obtain ⟨st0, hc, rfl⟩ := step_ok_elim tok st st' hs
  have hfk : (updatePrev tok st0).keyFlag = st0.keyFlag := rfl
  have hfv : (updatePrev tok st0).valFlag = st0.valFlag := rfl
  rw [hfk, hfv]
  unfold stepCore at hc
  obtain ⟨tt, l, c, v⟩ := tok
  cases tt <;> simp only at hc h1 h2 <;> (repeat' split at hc) <;>
    (try cases hc) <;> simp_all

/-- C9 witness: the preservation theorem applied to a `map-value-marker`
arriving with no key expected. -/
theorem c9_flag_exclusion_witness :
    ¬((⟨"", false, false, true, ⟨.mapVal, 1, 1, none⟩, initTok, []⟩
        : WalkSt).keyFlag = true ∧
      (⟨"", false, false, true, ⟨.mapVal, 1, 1, none⟩, initTok, []⟩
        : WalkSt).valFlag = true) :=
  c9_flag_exclusion ⟨.mapVal, 1, 1, none⟩ initSt _
    (by decide) (by decide) (by decide) rfl

/-! ### Tokenizer unfolding lemmas (for C8) -/

theorem takeWhile_append_stop (p : Char → Bool) (xs : List Char) (y : Char)
    (ys : List Char) (hx : ∀ c ∈ xs, p c = true) (hy : p y = false) :
    (xs ++ y :: ys).takeWhile p = xs := by
  induction xs with
  | nil => rw [List.nil_append, List.takeWhile_cons, hy, if_neg (by simp)]
  | cons a xs ih =>
    have ha : p a = true := hx a (by simp)
    rw [List.cons_append, List.takeWhile_cons, ha, if_pos rfl,
      ih (fun c hc => hx c (by simp [hc]))]

theorem takeWhile_all (p : Char → Bool) (xs : List Char)
    (hx : ∀ c ∈ xs, p c = true) : xs.takeWhile p = xs := by
  induction xs with
  | nil => rfl
  | cons a xs ih =>
    have ha : p a = true := hx a (by simp)
    rw [List.takeWhile_cons, ha, if_pos rfl,
      ih (fun c hc => hx c (by simp [hc]))]

theorem findClose_append (vs : List Char) (r : List Char) :
    ∀ (prev : Char) (i : Nat), (∀ c ∈ vs, c ≠ '"' ∧ c ≠ '\\') →
      prev ≠ '\\' → findClose prev (vs ++ '"' :: r) i = some (i + vs.length) := by
  induction vs with
  | nil =>
    intro prev i _ hp
    simp [findClose, hp]
  | cons a vs ih =>
    intro prev i h hp
    have ha := h a (by simp)
    rw [List.cons_append, findClose, if_neg (by simp [ha.1])]
    rw [ih a (i + 1) (fun c hc => h c (by simp [hc])) ha.2]
    congr 1
    simp
    omega

theorem stripCont_id (vs : List Char) (h : ∀ c ∈ vs, c ≠ '\\') :
    stripCont vs = vs := by
  induction vs with
  | nil => rfl
  | cons a vs ih =>
    have ha := h a (by simp)
    rw [stripCont.eq_def]
    split
    · next heq =>
      injection heq with h1 _
      exact absurd h1 ha
    · next c rest heq =>
      injection heq with h1 h2
      subst h1
      subst h2
      rw [ih (fun c hc => h c (by simp [hc]))]
    · next heq => cases heq

theorem tokenizeF_cons_emit {fuel : Nat} {c : Char} {rest : List Char}
    {line col ws : Nat} {tk : Token} {n line' col' ws' : Nat}
    (h : tokRule c rest line col ws = some (some tk, n, line', col', ws')) :
    tokenizeF (fuel + 1) (c :: rest) line col ws =
      ⟨tk :: (tokenizeF fuel ((c :: rest).drop n) line' col' ws').toks,
        (tokenizeF fuel ((c :: rest).drop n) line' col' ws').ok⟩ := by
  simp only [tokenizeF, h]

theorem tokenizeF_cons_skip {fuel : Nat} {c : Char} {rest : List Char}
    {line col ws : Nat} {n line' col' ws' : Nat}
    (h : tokRule c rest line col ws = some (none, n, line', col', ws')) :
    tokenizeF (fuel + 1) (c :: rest) line col ws =
      tokenizeF fuel ((c :: rest).drop n) line' col' ws' := by
  simp only [tokenizeF, h]

theorem tokRule_space (rest : List Char) (line col ws : Nat) :
    tokRule ' ' rest line col ws = some (none, 1, line, col + 1, ws + 1) := rfl

theorem tokRule_tag (x : List Char) (line col ws : Nat) :
    tokRule '!' ('!' :: x) line col ws =
      some (some ⟨.tag, line, col,
          some (x.takeWhile (fun ch => !pyIsSpace ch)).asString⟩,
        2 + (x.takeWhile (fun ch => !pyIsSpace ch)).length, line,
        col + (2 + (x.takeWhile (fun ch => !pyIsSpace ch)).length),
        ws + (2 + (x.takeWhile (fun ch => !pyIsSpace ch)).length)) := rfl

theorem tokRule_hash (x : List Char) (line col ws : Nat) :
    tokRule '#' x line col ws =
      some (some ⟨(if ws = col then .commentLine else .commentInline),
          line, col, some (x.takeWhile (fun ch => ch ≠ '\n')).asString⟩,
        1 + (x.takeWhile (fun ch => ch ≠ '\n')).length, line,
        col + (1 + (x.takeWhile (fun ch => ch ≠ '\n')).length), ws) := rfl

theorem tokRule_quote (x : List Char) (line col ws : Nat) (j : Nat)
    (h : findClose '"' x 1 = some j) :
    tokRule '"' x line col ws =
      some (some ⟨.value, line, col,
          some (stripCont (x.take (j - 1))).asString⟩,
        j + 1, line, col + (j + 1), ws) := by
  have h0 : tokRule '"' x line col ws =
      (match findClose '"' x 1 with
       | some j =>
         some (some ⟨.value, line, col,
             some (stripCont (x.take (j - 1))).asString⟩,
           j + 1, line, col + (j + 1), ws)
       | none => none) := rfl
  rw [h0, h]

theorem tokenizeF_spaces (k f line col ws : Nat) (rest : List Char) :
    tokenizeF (k + f) (List.replicate k ' ' ++ rest) line col ws =
      tokenizeF f rest line (col + k) (ws + k) := by
  induction k generalizing col ws with
  | zero => simp
  | succ k ih =>
    rw [List.replicate_succ, List.cons_append]
    rw [show k + 1 + f = (k + f) + 1 from by omega]
    rw [tokenizeF_cons_skip (tokRule_space _ line col ws)]
    rw [List.drop_succ_cons, List.drop_zero, ih]
    rw [show col + 1 + k = col + (k + 1) from by omega,
      show ws + 1 + k = ws + (k + 1) from by omega]

theorem tokenizeF_nil (f line col ws : Nat) :
    tokenizeF f [] line col ws = ⟨[], true⟩ := by
  cases f <;> rfl

/-- C8 counterexample: in `!!str # x` the `#` is not the first
non-whitespace on its line (a tag precedes it), yet the tokenizer
classifies the comment as `comment-line`, not `comment-inline`: the tag
rule advances the whitespace counter `ws` along with the column, so a tag
counts as whitespace for comment classification. -/
theorem c8_counterexample :
    tokenize "!!str # x".data =
      ⟨[⟨.tag, 1, 1, some "str"⟩, ⟨.commentLine, 1, 7, some " x"⟩], true⟩ :=
  rfl

/-- C8 (amended): a comment is classified `comment-line` exactly when
everything before it on its line is spaces or tag tokens (the tokenizer
advances its whitespace counter over tags): after any run of spaces, a
comment following a tag is `comment-line`, a comment following a quoted
value is `comment-inline`, and a bare comment is `comment-line`. -/
theorem c8_comment_classification (k : Nat) (nm vs body : List Char)
    (hnm : ∀ c ∈ nm, pyIsSpace c = false)
    (hvs : ∀ c ∈ vs, c ≠ '"' ∧ c ≠ '\\')
    (hb : ∀ c ∈ body, c ≠ '\n') :
    tokenize (List.replicate k ' ' ++ '!' :: '!' :: (nm ++ ' ' :: '#' :: body)) =
      ⟨[⟨.tag, 1, k + 1, some nm.asString⟩,
        ⟨.commentLine, 1, k + nm.length + 4, some body.asString⟩], true⟩ ∧
    tokenize (List.replicate k ' ' ++ '"' :: (vs ++ '"' :: ' ' :: '#' :: body)) =
      ⟨[⟨.value, 1, k + 1, some vs.asString⟩,
        ⟨.commentInline, 1, k + vs.length + 4, some body.asString⟩], true⟩ ∧
    tokenize (List.replicate k ' ' ++ '#' :: body) =
      ⟨[⟨.commentLine, 1, k + 1, some body.asString⟩], true⟩ := by
  have hbodyTW : body.takeWhile (fun ch => ch ≠ '\n') = body :=
    takeWhile_all _ body (fun c hc => by simp [hb c hc])
  refine ⟨?_, ?_, ?_⟩
  · -- spaces, tag, space, comment: comment-line
    have hrun : (nm ++ ' ' :: '#' :: body).takeWhile (fun ch => !pyIsSpace ch)
        = nm := by
      refine takeWhile_append_stop _ nm ' ' _ (fun c hc => ?_) (by rfl)
      simp [hnm c hc]
    unfold tokenize
    have hlen :
        (List.replicate k ' ' ++ ('!' :: '!' :: (nm ++ ' ' :: '#' :: body))).length
          = k + (nm.length + body.length + 4) := by
      simp
      omega
    rw [hlen, tokenizeF_spaces]
    rw [show nm.length + body.length + 4 = (nm.length + body.length + 3) + 1
      from rfl]
    have h1 := tokRule_tag (nm ++ ' ' :: '#' :: body) 1 (1 + k) (1 + k)
    rw [hrun] at h1
    rw [tokenizeF_cons_emit h1]
    have hdrop : ('!' :: '!' :: (nm ++ ' ' :: '#' :: body)).drop (2 + nm.length)
        = ' ' :: '#' :: body := by
      rw [show 2 + nm.length = nm.length + 1 + 1 from by omega]
      rw [List.drop_succ_cons, List.drop_succ_cons]
      exact List.drop_left nm _
    rw [hdrop]
    rw [show nm.length + body.length + 3 = (nm.length + body.length + 2) + 1
      from rfl]
    rw [tokenizeF_cons_skip (tokRule_space _ _ _ _)]
    rw [List.drop_succ_cons, List.drop_zero]
    rw [show nm.length + body.length + 2 = (nm.length + body.length + 1) + 1
      from rfl]
    have h2 := tokRule_hash body 1 (1 + k + (2 + nm.length) + 1)
      (1 + k + (2 + nm.length) + 1)
    rw [hbodyTW, if_pos rfl] at h2
    rw [tokenizeF_cons_emit h2]
    rw [show 1 + body.length = body.length + 1 from by omega]
    rw [List.drop_succ_cons, List.drop_length, tokenizeF_nil]
    simp only [LexOut.mk.injEq, List.cons.injEq, Token.mk.injEq, and_true,
      true_and]
    omega
  · -- spaces, quoted value, space, comment: comment-inline
    unfold tokenize
    have hlen :
        (List.replicate k ' ' ++ ('"' :: (vs ++ '"' :: ' ' :: '#' :: body))).length
          = k + (vs.length + body.length + 4) := by
      simp
      omega
    rw [hlen, tokenizeF_spaces]
    rw [show vs.length + body.length + 4 = (vs.length + body.length + 3) + 1
      from rfl]
    have hfind : findClose '"' (vs ++ '"' :: ' ' :: '#' :: body) 1
        = some (1 + vs.length) :=
      findClose_append vs (' ' :: '#' :: body) '"' 1 hvs (by decide)
    have h1 := tokRule_quote (vs ++ '"' :: ' ' :: '#' :: body) 1 (1 + k)
      (1 + k) (1 + vs.length) hfind
    rw [show 1 + vs.length - 1 = vs.length from by omega] at h1
    rw [show (vs ++ '"' :: ' ' :: '#' :: body).take vs.length = vs from
      List.take_left vs _] at h1
    rw [stripCont_id vs (fun c hc => (hvs c hc).2)] at h1
    rw [tokenizeF_cons_emit h1]
    have hdrop : ('"' :: (vs ++ '"' :: ' ' :: '#' :: body)).drop (1 + vs.length + 1)
        = ' ' :: '#' :: body := by
      rw [show 1 + vs.length + 1 = (vs.length + 1) + 1 from by omega]
      rw [List.drop_succ_cons]
      rw [show vs ++ '"' :: ' ' :: '#' :: body
          = (vs ++ ['"']) ++ (' ' :: '#' :: body) from by simp]
      rw [show vs.length + 1 = (vs ++ ['"']).length from by simp]
      exact List.drop_left _ _
    rw [hdrop]
    rw [show vs.length + body.length + 3 = (vs.length + body.length + 2) + 1
      from rfl]
    rw [tokenizeF_cons_skip (tokRule_space _ _ _ _)]
    rw [List.drop_succ_cons, List.drop_zero]
    rw [show vs.length + body.length + 2 = (vs.length + body.length + 1) + 1
      from rfl]
    have h2 := tokRule_hash body 1 (1 + k + (1 + vs.length + 1) + 1) (1 + k + 1)
    rw [hbodyTW, if_neg (by omega)] at h2
    rw [tokenizeF_cons_emit h2]
    rw [show 1 + body.length = body.length + 1 from by omega]
    rw [List.drop_succ_cons, List.drop_length, tokenizeF_nil]
    simp only [LexOut.mk.injEq, List.cons.injEq, Token.mk.injEq, and_true,
      true_and]
    omega
  · -- spaces, comment: comment-line
    unfold tokenize
    have hlen : (List.replicate k ' ' ++ ('#' :: body)).length
        = k + (body.length + 1) := by
      simp
    rw [hlen, tokenizeF_spaces]
    have h2 := tokRule_hash body 1 (1 + k) (1 + k)
    rw [hbodyTW, if_pos rfl] at h2
    rw [tokenizeF_cons_emit h2]
    rw [show 1 + body.length = body.length + 1 from by omega]
    rw [List.drop_succ_cons, List.drop_length, tokenizeF_nil]
    simp only [LexOut.mk.injEq, List.cons.injEq, Token.mk.injEq, and_true,
      true_and]
    omega

/-- C8 witness: the classification family at two leading spaces, tag name
`str`, value text `v` and comment body ` x`. -/
theorem c8_comment_classification_witness :
    tokenize (List.replicate 2 ' ' ++ '!' :: '!' ::
        ("str".data ++ ' ' :: '#' :: " x".data)) =
      ⟨[⟨.tag, 1, 3, some "str"⟩, ⟨.commentLine, 1, 9, some " x"⟩], true⟩ ∧
    tokenize (List.replicate 2 ' ' ++ '"' ::
        ("v".data ++ '"' :: ' ' :: '#' :: " x".data)) =
      ⟨[⟨.value, 1, 3, some "v"⟩, ⟨.commentInline, 1, 7, some " x"⟩], true⟩ ∧
    tokenize (List.replicate 2 ' ' ++ '#' :: " x".data) =
      ⟨[⟨.commentLine, 1, 3, some " x"⟩], true⟩ :=
  c8_comment_classification 2 "str".data "v".data " x".data
    (by decide) (by decide) (by decide)

end Yamill
